import Mathlib

/-!
Verification of `agent/database_optimizer.py`

A shallow embedding of the query index advisor: the data model
(`DBExplain`, `DBColumn`, `DBIndex`, `ColumnStat`, `DBTable`), candidate
generation (`potential_indexes`), reduction against existing composite
indexes (`_remove_existing_indexes` / `remove_maximum_indexes`), scoring
(`index_score`), suggestion (`suggest_index`, `can_be_optimized`) and the
batch coordinator (`OptimizeDatabaseQueries.analyze`).

Python numbers are modelled as `Int` (row counts, sequence positions) and
`Rat` (cardinalities, scores: Python float arithmetic is idealised as exact
rational arithmetic).  Python exceptions are modelled with `Except`
(`OptimizerError` collects the exceptions the module can raise).
-/

attribute [local semireducible] Rat.mul Rat.inv

deriving instance DecidableEq for Except

namespace DBOpt

/-- Python `x or y` on numbers: `y` when `x` is falsy (i.e. zero), else `x`. -/
def pyOr (x y : Rat) : Rat := if x = 0 then y else x

/-- Whether `p` is a prefix of `l` (over characters). -/
def leadsWith : List Char → List Char → Bool
  | [], _ => true
  | _ :: _, [] => false
  | p :: ps, c :: cs => p == c && leadsWith ps cs

/-- Whether `pat` occurs as a contiguous sublist of `l`. -/
def containsChars (pat : List Char) : List Char → Bool
  | [] => leadsWith pat []
  | c :: cs => leadsWith pat (c :: cs) || containsChars pat cs

/-- Python `pat in s` substring test. -/
def strHasSub (s pat : String) : Bool := containsChars pat.data s.data

/-- Python `s.lower()` (ASCII is all that the data types need). -/
def strLower (s : String) : String := String.mk (s.data.map Char.toLower)

/-- Python `s.split(".")`: split on every dot, keeping empty pieces. -/
def splitOnDot (s : String) : List String :=
  (s.data.foldr
    (fun c acc =>
      if c = '.' then [] :: acc
      else match acc with
           | [] => [[c]]
           | h :: t => (c :: h) :: t)
    [[]]).map String.mk

/-- One row of EXPLAIN output (Python dataclass `DBExplain`).
`select_type` and `scan_type` are kept as plain strings; the upper-casing
done in `DBOptimizer.__post_init__` does not affect any verified claim. -/
structure DBExplain where
  select_type : String
  table : String
  scan_type : String
  possible_keys : Option (List String) := none
  key : Option String := none
  key_len : Option Int := none
  ref : Option String := none
  rows : Int := 0
  extra : Option String := none
deriving DecidableEq, Repr

/-- A table column (Python dataclass `DBColumn`).  `cardinality` is a `Rat`
because `DBTable.update_cardinality` stores `total_rows / avg_frequency`. -/
structure DBColumn where
  name : String
  cardinality : Option Rat
  is_nullable : Bool
  default : String
  data_type : String
deriving DecidableEq, Repr

/-- One row of an index description (Python dataclass `DBIndex`); a
composite index appears as several rows sharing `name`, distinguished by
`sequence`.  `table` is `Option String`: `_convert_to_db_index` builds
candidates whose table may be unresolved (`None`). -/
structure DBIndex where
  name : String
  column : String
  table : Option String
  unique : Option Bool := none
  cardinality : Option Rat := none
  sequence : Int := 1
  nullable : Bool := true
  _score : Rat := 0
deriving DecidableEq, Repr

/-- Python `DBIndex.__eq__`: equality on (column, sequence, table) only. -/
def dbIndexEq (a b : DBIndex) : Bool :=
  a.column == b.column && a.sequence == b.sequence && a.table == b.table

/-- Column statistics (Python dataclass `ColumnStat`). -/
structure ColumnStat where
  column_name : String
  avg_frequency : Rat
  avg_length : Rat
  nullFrac : Option Rat := none
  histogram : List Rat := []
deriving DecidableEq, Repr

/-- A table (Python dataclass `DBTable`). -/
structure DBTable where
  name : String
  total_rows : Int
  schema : List DBColumn := []
  indexes : List DBIndex := []
deriving DecidableEq, Repr

/-- `DBTable.has_column`. -/
def DBTable.has_column (t : DBTable) (column : String) : Bool :=
  t.schema.any (fun col => col.name == column)

/-- `DBTable.update_cardinality`: for each statistic, backfill the
cardinality of same-named columns whose cardinality is falsy (`None` or 0),
provided `avg_frequency` is truthy (non-zero). -/
def DBTable.update_cardinality (t : DBTable) (column_stats : List ColumnStat) : DBTable :=
  column_stats.foldl
    (fun tab stat =>
      { tab with
        schema := tab.schema.map (fun col =>
          if col.name == stat.column_name && col.cardinality.getD 0 == (0 : Rat)
              && stat.avg_frequency != (0 : Rat) then
            { col with cardinality := some ((tab.total_rows : Rat) / stat.avg_frequency) }
          else col) })
    t

/-- Python `list.remove`: drop the first element equal (by `DBIndex.__eq__`)
to `i`; Python raises `ValueError` when `i` is absent, a case the reducer
never reaches because removed elements are drawn from the pool itself. -/
def removeFirst : List DBIndex → DBIndex → List DBIndex
  | [], _ => []
  | x :: xs, i => if dbIndexEq x i then xs else x :: removeFirst xs i

/-- The `matching_part` list comprehension inside `remove_maximum_indexes`:
all pool candidates agreeing with the index part on (column, table). -/
def matchingPart (pool : List DBIndex) (idx_part : DBIndex) : List DBIndex :=
  pool.filter (fun i => i.column == idx_part.column && i.table == idx_part.table)

/-- `remove_maximum_indexes(idx)`, made functional.  The Python function
loops over the parts of one reconstructed composite index; if every part
has a match in the candidate pool it removes all matched candidates,
otherwise it pops the last part and recurses.  The `Nat` fuel mirrors the
recursion depth (one `pop` per step); `removeMaximumIndexes` supplies
enough fuel for the recursion to always terminate at the `[]` base case. -/
def removeMaximumIndexesFuel : Nat → List DBIndex → List DBIndex → List DBIndex
  | 0, pool, _ => pool
  | _ + 1, pool, [] => pool
  | fuel + 1, pool, idx =>
    if idx.all (fun part => !(matchingPart pool part).isEmpty) then
      ((idx.map (matchingPart pool)).foldl (fun acc l => acc ++ l) []).foldl removeFirst pool
    else
      removeMaximumIndexesFuel fuel pool idx.dropLast

/-- `remove_maximum_indexes` acting on a pool: returns the reduced pool. -/
def removeMaximumIndexes (pool idx : List DBIndex) : List DBIndex :=
  removeMaximumIndexesFuel (idx.length + 1) pool idx

/-- Order-preserving first-occurrence deduplication (the key order of the
`defaultdict` in `_remove_existing_indexes`). -/
def dedupFirstAux (seen : List String) : List String → List String
  | [] => []
  | x :: xs =>
    if seen.contains x then dedupFirstAux seen xs
    else x :: dedupFirstAux (seen ++ [x]) xs

/-- First-occurrence order of the distinct elements of a list. -/
def dedupFirst (l : List String) : List String := dedupFirstAux [] l

/-- Ordering of index rows by `sequence` (the `idx.sort` key). -/
def seqLe (a b : DBIndex) : Prop := a.sequence ≤ b.sequence

instance : DecidableRel seqLe := fun a b => inferInstanceAs (Decidable (a.sequence ≤ b.sequence))

/-- Python's stable ascending sort by `sequence`, as a stable insertion sort. -/
def sortBySequence (l : List DBIndex) : List DBIndex := List.insertionSort seqLe l

/-- The `merged_indexes` grouping in `_remove_existing_indexes`: index rows
grouped by index name (first-insertion key order), each group sorted by
sequence, reconstructing composite column order. -/
def groupIndexesByName (indexes : List DBIndex) : List (List DBIndex) :=
  (dedupFirst (indexes.map (fun i => i.name))).map
    (fun n => sortBySequence (indexes.filter (fun i => i.name == n)))

/-- `_remove_existing_indexes`: run `remove_maximum_indexes` for every
reconstructed composite index of every supplied table, in order. -/
def removeExistingIndexes (tables : List DBTable) (pool : List DBIndex) : List DBIndex :=
  tables.foldl (fun p t => (groupIndexesByName t.indexes).foldl removeMaximumIndexes p) pool

/-- An index candidate as built by `_convert_to_db_index` (all other fields
at their dataclass defaults). -/
def mkCandidate (t column : String) : DBIndex :=
  { name := column, column := column, table := some t }

/-- One row of an existing composite index, as parsed from introspection
output (`DBIndex.from_frappe_output`). -/
def mkIndexPart (n t column : String) (seq : Int) : DBIndex :=
  { name := n, column := column, table := some t, sequence := seq }

/-- The exceptions `database_optimizer.py` can raise:
`Exception` from the missing-table guard of `suggest_index` (`configError`),
`KeyError` from `self.tables[index.table]` (`keyError`), `StopIteration`
from the bare `next(...)` over a table schema (`stopIteration`),
`ValueError` from unpacking `column.split(".")` (`valueError`), a
`sql_metadata` parse failure (`parseError`), and `AttributeError` from
calling a method on the `None` returned by `describe_database_table`
(`attributeError`). -/
inductive OptimizerError
  | configError (missing : List String)
  | keyError (table : Option String)
  | stopIteration (column : String)
  | valueError (column : String)
  | parseError (query : String)
  | attributeError (table : String)
deriving DecidableEq, Repr

/-- The output of the external SQL parser for one query (`sql_metadata`'s
`Parser`): referenced tables, per-clause column references, and whether a
LIMIT/OFFSET clause is present. -/
structure ParsedQuery where
  tables : List String
  whereColumns : List String := []
  joinColumns : List String := []
  orderByColumns : List String := []
  limitAndOffset : Bool := false
deriving DecidableEq, Repr

/-- The per-query optimizer context (Python dataclass `DBOptimizer`): the
parsed query, the EXPLAIN plan, and the supplied tables as an
insertion-ordered mapping keyed by table name. -/
structure DBOptimizer where
  parsed_query : ParsedQuery
  explain_plan : List DBExplain := []
  tables : List (String × DBTable) := []
deriving DecidableEq, Repr

/-- `DBOptimizer.tables_examined`. -/
def tablesExamined (opt : DBOptimizer) : List String := opt.parsed_query.tables

/-- Python dict lookup on an insertion-ordered association list. -/
def lookupAssoc {α : Type} (m : List (String × α)) (k : String) : Option α :=
  (m.find? (fun p => p.1 == k)).map (fun p => p.2)

/-- Python dict insert-or-replace, preserving insertion order. -/
def assocSet {α : Type} (m : List (String × α)) (k : String) (v : α) : List (String × α) :=
  match m with
  | [] => [(k, v)]
  | (k', v') :: rest => if k' == k then (k, v) :: rest else (k', v') :: assocSet rest k v

/-- `DBOptimizer.update_table_data`. -/
def updateTableData (opt : DBOptimizer) (t : DBTable) : DBOptimizer :=
  { opt with tables := assocSet opt.tables t.name t }

/-- `self.tables[index.table]`: the optimizer's table mapping is keyed by
`str`, so a `None` table (an unresolved candidate) can never be found and
Python raises `KeyError` — modelled by the `none` result. -/
def lookupTable (tables : List (String × DBTable)) : Option String → Option DBTable
  | none => none
  | some n => lookupAssoc tables n

/-- `DBOptimizer._convert_to_db_index`: a dotted reference is split into
table and column; a bare reference is resolved to the first supplied table
whose schema has that column (else the table stays `None`).  A reference
with more than one dot makes Python's 2-tuple unpacking of
`column.split(".")` raise `ValueError`. -/
def convertToDBIndex (tables : List (String × DBTable)) (column : String) :
    Except OptimizerError DBIndex :=
  match splitOnDot column with
  | [c] =>
    .ok { name := c, column := c,
          table := (tables.find? (fun p => p.2.has_column c)).map (fun p => p.1) }
  | [t, c] => .ok { name := c, column := c, table := some t }
  | _ => .error (.valueError column)

/-- Code-point-lexicographic strict comparison of character lists:
Python's `<` on strings. -/
def charsLt : List Char → List Char → Bool
  | _, [] => false
  | [], _ :: _ => true
  | a :: as, b :: bs =>
    if a.toNat < b.toNat then true
    else if b.toNat < a.toNat then false
    else charsLt as bs

/-- Python `a < b` on strings. -/
def strLt (a b : String) : Bool := charsLt a.data b.data

/-- Python `a <= b` on strings. -/
def strLe (a b : String) : Bool := charsLt a.data b.data || a == b

/-- The Python sort key `(i.table, i.column)` as a boolean comparator:
lexicographic, with the unresolved table `None` ordered first (Python
itself cannot compare `None` with `str`; the claims about sortedness are
stated for pools whose tables all resolved, where this comparator agrees
with Python's tuple order). -/
def candLeb (a b : DBIndex) : Bool :=
  match a.table, b.table with
  | none, none => strLe a.column b.column
  | none, some _ => true
  | some _, none => false
  | some x, some y => if x == y then strLe a.column b.column else strLt x y

/-- `candLeb` as a relation, for `List.insertionSort`. -/
def candRel (a b : DBIndex) : Prop := candLeb a b = true

instance : DecidableRel candRel := fun a b => inferInstanceAs (Decidable (candLeb a b = true))

/-- `DBOptimizer.potential_indexes` up to (and excluding) the reduction
against existing indexes: collect WHERE columns, JOIN columns, and — only
when a LIMIT/OFFSET is present — ORDER BY columns; convert each reference
to a candidate; drop `*` and the primary-key column `name`; sort by the
`(table, column)` key.  (Python's stable `list.sort` is modelled by a
stable insertion sort.) -/
def possibleColumns (opt : DBOptimizer) : List String :=
  opt.parsed_query.whereColumns ++ opt.parsed_query.joinColumns ++
    (if opt.parsed_query.limitAndOffset then opt.parsed_query.orderByColumns else [])

/-- Candidate conversion, exclusion of `*` and `name`, and the
`(table, column)` sort of `potential_indexes` (see `possibleColumns` for
the clause collection step). -/
def generateCandidates (opt : DBOptimizer) : Except OptimizerError (List DBIndex) :=
  (possibleColumns opt).mapM (convertToDBIndex opt.tables) >>= fun conv =>
    .ok (List.insertionSort candRel
      (conv.filter (fun i => i.column != "*" && i.column != "name")))

/-- `DBOptimizer.potential_indexes`: generation followed by reduction
against the existing indexes of the supplied tables (in mapping order). -/
def potentialIndexes (opt : DBOptimizer) : Except OptimizerError (List DBIndex) :=
  generateCandidates opt >>= fun cands =>
    .ok (removeExistingIndexes (opt.tables.map (fun p => p.2)) cands)

/-- `INDEX_SCORE_THRESHOLD = 0.3`. -/
def INDEX_SCORE_THRESHOLD : Rat := 3 / 10

/-- `OPTIMIZATION_THRESHOLD = 0.1`. -/
def OPTIMIZATION_THRESHOLD : Rat := 1 / 10

/-- `DBOptimizer.index_score`, given the candidate's (already looked-up)
table: `cardinality = index.cardinality or 2`,
`total_rows = table.total_rows or cardinality or 1`,
`rows_fetched_on_average = (table.total_rows or cardinality) / cardinality`,
score `= rows_fetched_on_average / total_rows`. -/
def indexScore (table : DBTable) (index : DBIndex) : Rat :=
  let cardinality := pyOr (index.cardinality.getD 0) 2
  let total_rows := pyOr (pyOr (table.total_rows : Rat) cardinality) 1
  let rows_fetched_on_average := pyOr (table.total_rows : Rat) cardinality / cardinality
  rows_fetched_on_average / total_rows

/-- The data-type filtering loop of `suggest_index`, in candidate order:
look up the candidate's table (`KeyError` when unresolved or absent), find
its column in the schema (`StopIteration` when absent), drop candidates of
TEXT/JSON-like type, keep the rest with cardinality backfilled from the
column, paired with their table for scoring. -/
def typeFilter (tables : List (String × DBTable)) :
    List DBIndex → Except OptimizerError (List (DBIndex × DBTable))
  | [] => .ok []
  | i :: rest =>
    match lookupTable tables i.table with
    | none => .error (.keyError i.table)
    | some t =>
      match t.schema.find? (fun c => c.name == i.column) with
      | none => .error (.stopIteration i.column)
      | some col =>
        typeFilter tables rest >>= fun rest' =>
          if strHasSub (strLower col.data_type) "text"
              || strHasSub (strLower col.data_type) "json" then
            .ok rest'
          else
            .ok (({ i with cardinality := col.cardinality }, t) :: rest')

/-- The sort key `i._score` of the final sort in `suggest_index`. -/
def scoreLe (a b : DBIndex) : Prop := a._score ≤ b._score

instance : DecidableRel scoreLe := fun a b => inferInstanceAs (Decidable (a._score ≤ b._score))

/-- The scoring loop of `suggest_index`: each surviving candidate gets
`_score = index_score(candidate)` computed against its table. -/
def scoreAll (survivors : List (DBIndex × DBTable)) : List DBIndex :=
  survivors.map (fun p => { p.1 with _score := indexScore p.2 p.1 })

/-- The `missing_tables` guard expression of `suggest_index`:
`set(tables_examined) - set(tables.keys())`, as the first-occurrence
deduplication of the examined tables that have no supplied data. -/
def missingTables (opt : DBOptimizer) : List String :=
  dedupFirst ((tablesExamined opt).filter (fun t => (lookupAssoc opt.tables t).isNone))

/-- `DBOptimizer.suggest_index`: guard that every examined table was
supplied (else an `Exception` naming the missing tables); generate and
reduce candidates; type-filter and score the survivors; sort by score and
return the best candidate only when its score is strictly below
`INDEX_SCORE_THRESHOLD`, else `None`. -/
def suggestIndex (opt : DBOptimizer) : Except OptimizerError (Option DBIndex) :=
  if (missingTables opt).isEmpty then
    potentialIndexes opt >>= fun pool =>
    typeFilter opt.tables pool >>= fun survivors =>
    match List.insertionSort scoreLe (scoreAll survivors) with
    | [] => .ok none
    | best :: _ =>
      if best._score < INDEX_SCORE_THRESHOLD then .ok (some best) else .ok none
  else
    .error (.configError (missingTables opt))

/-- `DBOptimizer.can_be_optimized`: true iff some EXPLAIN entry and some
supplied table share a name and `rows / total_rows` exceeds
`OPTIMIZATION_THRESHOLD`.  (Python raises `ZeroDivisionError` when such a
table has `total_rows == 0`; rational division by zero yields 0 here, and
the claim about this predicate is stated for non-zero row counts.) -/
def canBeOptimized (opt : DBOptimizer) : Bool :=
  opt.explain_plan.any (fun e =>
    (opt.tables.map (fun p => p.2)).any (fun t =>
      t.name == e.table &&
        decide ((e.rows : Rat) / (t.total_rows : Rat) > OPTIMIZATION_THRESHOLD)))

/-- A raw query together with its parse result; `parsed = none` models a
`sql_metadata` parse failure inside `DBOptimizer.__post_init__`. -/
structure Query where
  raw : String
  parsed : Option ParsedQuery
deriving DecidableEq, Repr

/-- The introspection collaborator used by `OptimizeDatabaseQueries`
(`site.db_instance().explain_queries`, `site.describe_database_table`,
`db.fetch_database_column_statistics`), with boundary parsing from raw
payloads into the data model already applied. -/
structure Site where
  explainQueries : List String → List (String × List DBExplain)
  describeTable : String → Option DBTable
  columnStatistics : String → List ColumnStat

/-- The coordinator's mutable state: the two caches declared in
`OptimizeDatabaseQueries.__init__`, plus logs of the introspection calls
actually issued (one entry per fetcher invocation). -/
structure CoordState where
  table_cache : List (String × Option DBTable) := []
  column_statistics_cache : List (String × List ColumnStat) := []
  describeCalls : List String := []
  statsCalls : List String := []
deriving DecidableEq, Repr

/-- `OptimizeDatabaseQueries.describe_database_table`: consult the table
cache; on a miss invoke the fetcher, cache the result (also caching a
`None` result), and return it. -/
def describeDatabaseTable (site : Site) (st : CoordState) (table_name : String) :
    Option DBTable × CoordState :=
  match lookupAssoc st.table_cache table_name with
  | some r => (r, st)
  | none =>
    let r := site.describeTable table_name
    (r, { st with
            describeCalls := st.describeCalls ++ [table_name],
            table_cache := st.table_cache ++ [(table_name, r)] })

/-- `OptimizeDatabaseQueries.fetch_column_stats`: consult the statistics
cache; on a miss invoke the fetcher and return its result.  Note that the
code never writes to `column_statistics_cache`. -/
def fetchColumnStats (site : Site) (st : CoordState) (table_name : String) :
    List ColumnStat × CoordState :=
  match lookupAssoc st.column_statistics_cache table_name with
  | some r => (r, st)
  | none =>
    (site.columnStatistics table_name,
     { st with statsCalls := st.statsCalls ++ [table_name] })

/-- The per-table loop of `analyze`: describe the table (an
`AttributeError` is raised on the `None` result of a failed description,
because `update_cardinality` is then called on `None`), fetch its column
statistics, backfill cardinalities and hand the table to the optimizer. -/
def processTables (site : Site) (st : CoordState) (opt : DBOptimizer) :
    List String → Except OptimizerError (DBOptimizer × CoordState)
  | [] => .ok (opt, st)
  | t :: rest =>
    let (dbt, st₁) := describeDatabaseTable site st t
    let (stats, st₂) := fetchColumnStats site st₁ t
    match dbt with
    | none => .error (.attributeError t)
    | some tab => processTables site st₂ (updateTableData opt (tab.update_cardinality stats)) rest

/-- Appending one suggestion under a query key in the result dict of
`analyze` (`suggested_indexes_of_queries`). -/
def addSuggestion (m : List (String × List DBIndex)) (q : String) (i : DBIndex) :
    List (String × List DBIndex) :=
  match m with
  | [] => [(q, [i])]
  | (k, v) :: rest => if k == q then (k, v ++ [i]) :: rest else (k, v) :: addSuggestion rest q i

/-- The main loop of `OptimizeDatabaseQueries.analyze` over the query list:
a query absent from the EXPLAIN output map is skipped; otherwise the
optimizer is built (a parse failure raises), its tables are fetched and
attached, and `suggest_index` is called; a suggestion, when present, is
recorded under the query.  Any raised exception propagates, aborting the
whole loop. -/
def analyzeLoop (site : Site) (explainMap : List (String × List DBExplain))
    (st : CoordState) (acc : List (String × List DBIndex)) :
    List Query → Except OptimizerError (List (String × List DBIndex) × CoordState)
  | [] => .ok (acc, st)
  | q :: rest =>
    match lookupAssoc explainMap q.raw with
    | none => analyzeLoop site explainMap st acc rest
    | some ep =>
      match q.parsed with
      | none => .error (.parseError q.raw)
      | some pq =>
        processTables site st { parsed_query := pq, explain_plan := ep }
            (tablesExamined { parsed_query := pq, explain_plan := ep }) >>= fun p =>
        suggestIndex p.1 >>= fun idx =>
        match idx with
        | some i => analyzeLoop site explainMap p.2 (addSuggestion acc q.raw i) rest
        | none => analyzeLoop site explainMap p.2 acc rest

/-- `OptimizeDatabaseQueries.analyze`: obtain the EXPLAIN outputs for all
queries at once, then run the per-query loop starting from fresh caches. -/
def analyze (site : Site) (queries : List Query) :
    Except OptimizerError (List (String × List DBIndex) × CoordState) :=
  analyzeLoop site (site.explainQueries (queries.map (fun q => q.raw))) {} [] queries

/-! ## Concrete fixtures used by the theorems below -/

/-- An `int` column with a given cardinality. -/
def colInt (n : String) (card : Option Rat) : DBColumn :=
  { name := n, cardinality := card, is_nullable := true, default := "", data_type := "int" }

/-- A table `t` of 100000 rows with one indexable column `x` of cardinality 100. -/
def tblT : DBTable :=
  { name := "t", total_rows := 100000, schema := [colInt "x" (some 100)] }

/-- A table with one composite index `idxn` on `(a, b, c)` in sequence order. -/
def tblWithIndex3 (tbl idxn a b c : String) (tr : Int) : DBTable :=
  { name := tbl, total_rows := tr,
    indexes := [mkIndexPart idxn tbl a 1, mkIndexPart idxn tbl b 2, mkIndexPart idxn tbl c 3] }

/-- Query context for the happy suggestion path: `WHERE t.x = …` on `tblT`. -/
def opt3 : DBOptimizer :=
  { parsed_query := { tables := ["t"], whereColumns := ["t.x"] }, tables := [("t", tblT)] }

/-- The suggestion produced on `opt3`. -/
def best3 : DBIndex :=
  { name := "x", column := "x", table := some "t", cardinality := some 100, _score := 1/100 }

/-- Query context referencing a table `u` that was not supplied. -/
def opt8 : DBOptimizer :=
  { parsed_query := { tables := ["t", "u"] }, tables := [("t", tblT)] }

/-- Query context with an unqualified column `zz` found in no supplied schema:
the supplied-tables precondition holds, yet candidate resolution leaves the
table as `None`. -/
def opt10 : DBOptimizer :=
  { parsed_query := { tables := ["t"], whereColumns := ["zz"] }, tables := [("t", tblT)] }

/-- Query context where column `t.x` occurs in both WHERE and JOIN clauses. -/
def optDup : DBOptimizer :=
  { parsed_query := { tables := ["t"], whereColumns := ["t.x"], joinColumns := ["t.x"] },
    tables := [("t", tblT)] }

/-- Explain plan scanning 50000 of the 100000 rows of `tblT`. -/
def opt9 : DBOptimizer :=
  { parsed_query := { tables := ["t"] },
    explain_plan := [{ select_type := "SIMPLE", table := "t", scan_type := "ALL",
                       rows := 50000 }],
    tables := [("t", tblT)] }

/-- Introspection stub: EXPLAIN output for `q1`, `q2`, `qg`; one table `t`. -/
def site4 : Site :=
  { explainQueries := fun _ => [("q1", []), ("q2", []), ("qg", [])],
    describeTable := fun n => if n == "t" then some tblT else none,
    columnStatistics := fun _ => [] }

/-- A trivially parsed query named `r` touching only table `t`. -/
def q4 (r : String) : Query := { raw := r, parsed := some { tables := ["t"] } }

/-- A query whose SQL fails to parse. -/
def qBad : Query := { raw := "q1", parsed := none }

/-- A well-formed query that yields a suggestion on `tblT`. -/
def qGood : Query :=
  { raw := "qg", parsed := some { tables := ["t"], whereColumns := ["t.x"] } }

/-- A candidate on `tblT`'s column `x` with a chosen cardinality. -/
def candCard (c : Rat) : DBIndex :=
  { name := "x", column := "x", table := some "t", cardinality := some c }

/-! ## Order properties of the sort comparators and other helper lemmas -/

instance : IsTotal DBIndex seqLe := ⟨fun a b => Int.le_total a.sequence b.sequence⟩

instance : IsTrans DBIndex seqLe := ⟨fun _ _ _ => Int.le_trans⟩

lemma charsLt_irrefl : ∀ a, charsLt a a = false
  | [] => rfl
  | c :: cs => by
    unfold charsLt
    simp [Nat.lt_irrefl, charsLt_irrefl cs]

lemma charsLt_cons (d e : Char) (ds es : List Char) :
    charsLt (d :: ds) (e :: es)
      = if d.toNat < e.toNat then true
        else if e.toNat < d.toNat then false
        else charsLt ds es := rfl

lemma charsLt_trans :
    ∀ a b c : List Char, charsLt a b = true → charsLt b c = true → charsLt a c = true := by
  intro a
  induction a with
  | nil =>
    intro b c hab hbc
    cases b with
    | nil => exact (Bool.false_ne_true hab).elim
    | cons e es =>
      cases c with
      | nil => exact (Bool.false_ne_true hbc).elim
      | cons f fs => rfl
  | cons d ds ih =>
    intro b c hab hbc
    cases b with
    | nil => exact (Bool.false_ne_true hab).elim
    | cons e es =>
      cases c with
      | nil => exact (Bool.false_ne_true hbc).elim
      | cons f fs =>
        rw [charsLt_cons] at hab hbc ⊢
        by_cases h1 : d.toNat < e.toNat
        · by_cases h2 : e.toNat < f.toNat
          · rw [if_pos (show d.toNat < f.toNat by omega)]
          · by_cases h3 : f.toNat < e.toNat
            · rw [if_neg h2, if_pos h3] at hbc
              exact (Bool.false_ne_true hbc).elim
            · rw [if_pos (show d.toNat < f.toNat by omega)]
        · by_cases h4 : e.toNat < d.toNat
          · rw [if_neg h1, if_pos h4] at hab
            exact (Bool.false_ne_true hab).elim
          · rw [if_neg h1, if_neg h4] at hab
            by_cases h2 : e.toNat < f.toNat
            · rw [if_pos (show d.toNat < f.toNat by omega)]
            · by_cases h3 : f.toNat < e.toNat
              · rw [if_neg h2, if_pos h3] at hbc
                exact (Bool.false_ne_true hbc).elim
              · rw [if_neg h2, if_neg h3] at hbc
                rw [if_neg (show ¬ d.toNat < f.toNat by omega),
                    if_neg (show ¬ f.toNat < d.toNat by omega)]
                exact ih es fs hab hbc

lemma charsLt_total : ∀ a b : List Char, charsLt a b = true ∨ charsLt b a = true ∨ a = b := by
  intro a
  induction a with
  | nil =>
    intro b
    cases b with
    | nil => exact Or.inr (Or.inr rfl)
    | cons e es => exact Or.inl rfl
  | cons d ds ih =>
    intro b
    cases b with
    | nil => exact Or.inr (Or.inl rfl)
    | cons e es =>
      by_cases h1 : d.toNat < e.toNat
      · exact Or.inl (by rw [charsLt_cons, if_pos h1])
      · by_cases h2 : e.toNat < d.toNat
        · exact Or.inr (Or.inl (by rw [charsLt_cons, if_pos h2]))
        · have hde : d = e :=
            Char.ext (UInt32.toNat.inj (show Char.toNat d = Char.toNat e by omega))
          subst hde
          rcases ih es with h | h | h
          · exact Or.inl (by rw [charsLt_cons, if_neg h1, if_neg h2]; exact h)
          · exact Or.inr (Or.inl (by rw [charsLt_cons, if_neg h1, if_neg h2]; exact h))
          · exact Or.inr (Or.inr (by rw [h]))

lemma charsLt_ne {a b : List Char} (h : charsLt a b = true) : a ≠ b := by
  intro he
  subst he
  rw [charsLt_irrefl] at h
  exact Bool.false_ne_true h

lemma strLe_total (a b : String) : strLe a b = true ∨ strLe b a = true := by
  unfold strLe
  rcases charsLt_total a.data b.data with h | h | h
  · exact Or.inl (by simp [h])
  · exact Or.inr (by simp [h])
  · have : a = b := String.ext h
    subst this
    exact Or.inl (by simp)

lemma strLe_trans {a b c : String}
    (hab : strLe a b = true) (hbc : strLe b c = true) : strLe a c = true := by
  unfold strLe at hab hbc ⊢
  rcases Bool.or_eq_true_iff.mp hab with h1 | h1 <;>
    rcases Bool.or_eq_true_iff.mp hbc with h2 | h2
  · simp [charsLt_trans _ _ _ h1 h2]
  · have : b = c := beq_iff_eq.mp h2
    subst this
    simp [h1]
  · have : a = b := beq_iff_eq.mp h1
    subst this
    simp [h2]
  · have hab' : a = b := beq_iff_eq.mp h1
    have hbc' : b = c := beq_iff_eq.mp h2
    subst hab'; subst hbc'
    simp

instance : IsTotal DBIndex candRel := ⟨by
  intro a b
  unfold candRel candLeb
  rcases a.table with _ | x <;> rcases b.table with _ | y
  case none.none => exact strLe_total a.column b.column
  case none.some => exact Or.inl rfl
  case some.none => exact Or.inr rfl
  case some.some =>
    show (if (x == y) = true then strLe a.column b.column else strLt x y) = true ∨
      (if (y == x) = true then strLe b.column a.column else strLt y x) = true
    by_cases hxy : x = y
    · subst hxy
      rw [if_pos (beq_self_eq_true x), if_pos (beq_self_eq_true x)]
      exact strLe_total a.column b.column
    · have hxyb : ¬ ((x == y) = true) := by simp [beq_eq_false_iff_ne.mpr hxy]
      have hyxb : ¬ ((y == x) = true) := by simp [beq_eq_false_iff_ne.mpr (Ne.symm hxy)]
      rw [if_neg hxyb, if_neg hyxb]
      unfold strLt
      rcases charsLt_total x.data y.data with h | h | h
      · exact Or.inl h
      · exact Or.inr h
      · exact absurd (String.ext h) hxy⟩

instance : IsTrans DBIndex candRel := ⟨by
  intro a b c hab hbc
  unfold candRel candLeb at hab hbc ⊢
  revert hab hbc
  rcases a.table with _ | x <;> rcases b.table with _ | y <;> rcases c.table with _ | z <;>
    intro hab hbc
  case none.none.none => exact strLe_trans hab hbc
  case none.none.some => exact rfl
  case none.some.none => exact (Bool.false_ne_true hbc).elim
  case none.some.some => exact rfl
  case some.none.none => exact (Bool.false_ne_true hab).elim
  case some.none.some => exact (Bool.false_ne_true hab).elim
  case some.some.none => exact (Bool.false_ne_true hbc).elim
  case some.some.some =>
    change (if (x == y) = true then strLe a.column b.column else strLt x y) = true at hab
    change (if (y == z) = true then strLe b.column c.column else strLt y z) = true at hbc
    show (if (x == z) = true then strLe a.column c.column else strLt x z) = true
    by_cases hxy : x = y <;> by_cases hyz : y = z
    · subst hxy; subst hyz
      rw [if_pos (beq_self_eq_true x)] at hab hbc ⊢
      exact strLe_trans hab hbc
    · subst hxy
      have hb : ¬ ((x == z) = true) := by simp [beq_eq_false_iff_ne.mpr hyz]
      rw [if_pos (beq_self_eq_true x)] at hab
      rw [if_neg hb] at hbc ⊢
      exact hbc
    · subst hyz
      have hb : ¬ ((x == y) = true) := by simp [beq_eq_false_iff_ne.mpr hxy]
      rw [if_pos (beq_self_eq_true y)] at hbc
      rw [if_neg hb] at hab ⊢
      exact hab
    · have hb1 : ¬ ((x == y) = true) := by simp [beq_eq_false_iff_ne.mpr hxy]
      have hb2 : ¬ ((y == z) = true) := by simp [beq_eq_false_iff_ne.mpr hyz]
      rw [if_neg hb1] at hab
      rw [if_neg hb2] at hbc
      unfold strLt at hab hbc
      have hlt : charsLt x.data z.data = true := charsLt_trans _ _ _ hab hbc
      have hne : x ≠ z := fun he => charsLt_ne hlt (by rw [he])
      rw [if_neg (show ¬ ((x == z) = true) by simp [beq_eq_false_iff_ne.mpr hne])]
      exact hlt⟩

instance : IsTotal DBIndex scoreLe := ⟨fun a b => le_total a._score b._score⟩

instance : IsTrans DBIndex scoreLe := ⟨fun _ _ _ => le_trans⟩

lemma exceptBind_ok {α β : Type} (x : α) (f : α → Except OptimizerError β) :
    (Except.ok x >>= f) = f x := rfl

lemma exceptBind_error {α β : Type} (e : OptimizerError) (f : α → Except OptimizerError β) :
    ((Except.error e : Except OptimizerError α) >>= f) = Except.error e := rfl

lemma mem_dedupFirstAux (a : String) :
    ∀ (l seen : List String), a ∈ dedupFirstAux seen l ↔ (a ∈ l ∧ a ∉ seen) := by
  intro l
  induction l with
  | nil => intro seen; simp [dedupFirstAux]
  | cons x xs ih =>
    intro seen
    unfold dedupFirstAux
    by_cases hx : seen.contains x
    · rw [if_pos hx, ih]
      have hxs : x ∈ seen := by
        have h' := hx
        rw [List.contains_eq_any_beq, List.any_eq_true] at h'
        obtain ⟨y, hy, hxy⟩ := h'
        exact (beq_iff_eq.mp hxy) ▸ hy
      constructor
      · rintro ⟨ha, hs⟩
        exact ⟨List.mem_cons_of_mem x ha, hs⟩
      · rintro ⟨ha, hs⟩
        rcases List.mem_cons.mp ha with rfl | ha'
        · exact absurd hxs hs
        · exact ⟨ha', hs⟩
    · rw [if_neg hx]
      have hxs : x ∉ seen := by
        intro hmem
        exact hx (by rw [List.contains_eq_any_beq, List.any_eq_true]; exact ⟨x, hmem, by simp⟩)
      constructor
      · intro hmem
        rcases List.mem_cons.mp hmem with rfl | ha'
        · exact ⟨List.mem_cons_self a xs, hxs⟩
        · have := (ih (seen ++ [x])).mp ha'
          refine ⟨List.mem_cons_of_mem x this.1, fun hs => this.2 (List.mem_append_left _ hs)⟩
      · rintro ⟨ha, hs⟩
        rcases List.mem_cons.mp ha with rfl | ha'
        · exact List.mem_cons_self a _
        · by_cases hax : a = x
          · subst hax; exact List.mem_cons_self a _
          · refine List.mem_cons_of_mem x ((ih (seen ++ [x])).mpr ⟨ha', fun hmem => ?_⟩)
            rcases List.mem_append.mp hmem with h' | h'
            · exact hs h'
            · exact hax (by simpa using h')

lemma mem_dedupFirst (a : String) (l : List String) : a ∈ dedupFirst l ↔ a ∈ l := by
  simp [dedupFirst, mem_dedupFirstAux]

lemma indexScore_eq (t : DBTable) (i : DBIndex) (htr : 0 < t.total_rows)
    (hc : i.cardinality.getD 2 ≠ 0) :
    indexScore t i = ((t.total_rows : Rat) / i.cardinality.getD 2) / (t.total_rows : Rat) := by
  have htr' : ((t.total_rows : Int) : Rat) ≠ 0 := by
    exact_mod_cast ne_of_gt htr
  cases hic : i.cardinality with
  | none => simp [indexScore, pyOr, hic, htr']
  | some q =>
    have hq : q ≠ 0 := by simpa [hic] using hc
    simp [indexScore, pyOr, hic, hq, htr']

/-! ## Theorems -/

/-- **C1, counterexample.**  For a composite index on `(A, B, C)` and a
candidate pool `{A, C}` (no `B`), the claim says the reducer removes
nothing and both `A` and `C` remain.  In fact the shrink-and-retry loop
pops `C` and `B`, matches the length-1 prefix `(A)`, and removes the `A`
candidate: only the `C` candidate remains. -/
theorem removeExisting_AC_counterexample :
    removeExistingIndexes [tblWithIndex3 "t" "i" "A" "B" "C" 100]
        [mkCandidate "t" "A", mkCandidate "t" "C"]
      = [mkCandidate "t" "C"] ∧
    removeExistingIndexes [tblWithIndex3 "t" "i" "A" "B" "C" 100]
        [mkCandidate "t" "A", mkCandidate "t" "C"]
      ≠ [mkCandidate "t" "A", mkCandidate "t" "C"] := by decide

/-- **C1, amended.**  For every table with a composite index on columns
`(a, b, c)` in sequence order and a candidate pool holding exactly a
candidate for `a` and a candidate for `c` (none for `b`), the reducer
matches the longest matching left-prefix — the length-1 prefix `(a)` —
and removes the `a` candidate; only the `c` candidate remains. -/
theorem removeExisting_AC_amended (tbl idxn a b c : String) (tr : Int)
    (hab : a ≠ b) (hac : a ≠ c) (hbc : b ≠ c) :
    removeExistingIndexes [tblWithIndex3 tbl idxn a b c tr]
        [mkCandidate tbl a, mkCandidate tbl c]
      = [mkCandidate tbl c] := by
  have hba : (b == a) = false := beq_eq_false_iff_ne.mpr (Ne.symm hab)
  have hca : (c == a) = false := beq_eq_false_iff_ne.mpr (Ne.symm hac)
  have hcb : (c == b) = false := beq_eq_false_iff_ne.mpr (Ne.symm hbc)
  have hab' : (a == b) = false := beq_eq_false_iff_ne.mpr hab
  have hac' : (a == c) = false := beq_eq_false_iff_ne.mpr hac
  have hbc' : (b == c) = false := beq_eq_false_iff_ne.mpr hbc
  simp [removeExistingIndexes, tblWithIndex3, groupIndexesByName, dedupFirst, dedupFirstAux,
        sortBySequence, List.insertionSort, List.orderedInsert, seqLe,
        removeMaximumIndexes, removeMaximumIndexesFuel, matchingPart, removeFirst, dbIndexEq,
        mkCandidate, mkIndexPart,
        hba, hca, hcb, hab', hac', hbc']

/-- Witness for `removeExisting_AC_amended` at concrete names. -/
theorem removeExisting_AC_amended_witness :
    ("A" ≠ "B" ∧ "A" ≠ "C" ∧ "B" ≠ "C") ∧
    removeExistingIndexes [tblWithIndex3 "t" "i" "A" "B" "C" 100]
        [mkCandidate "t" "A", mkCandidate "t" "C"]
      = [mkCandidate "t" "C"] :=
  ⟨⟨by decide, by decide, by decide⟩,
   removeExisting_AC_amended "t" "i" "A" "B" "C" 100 (by decide) (by decide) (by decide)⟩

/-- **C2, counterexample.**  For a composite index on `(A, B, C)` with
candidates for `A` and `B` in the pool, the claim says a separately present
candidate for `C` is left untouched.  In fact with `{A, B, C}` all present
the full prefix matches and all three candidates — `C` included — are
removed. -/
theorem removeExisting_AB_counterexample :
    removeExistingIndexes [tblWithIndex3 "t" "i" "A" "B" "C" 100]
        [mkCandidate "t" "A", mkCandidate "t" "B", mkCandidate "t" "C"]
      = [] ∧
    ¬ mkCandidate "t" "C" ∈
        removeExistingIndexes [tblWithIndex3 "t" "i" "A" "B" "C" 100]
          [mkCandidate "t" "A", mkCandidate "t" "B", mkCandidate "t" "C"] := by decide

/-- **C2, amended.**  For every table with a composite index on `(a, b, c)`
in sequence order: with candidates for `a` and `b` (and an unrelated
candidate for a fourth column `d`), the reducer removes exactly the `a` and
`b` candidates and leaves `d`; but a separately present candidate for `c`
is *also* matched (full-prefix match) and removed. -/
theorem removeExisting_AB_amended (tbl idxn a b c d : String) (tr : Int)
    (hab : a ≠ b) (hac : a ≠ c) (hbc : b ≠ c)
    (hda : d ≠ a) (hdb : d ≠ b) (hdc : d ≠ c) :
    removeExistingIndexes [tblWithIndex3 tbl idxn a b c tr]
        [mkCandidate tbl a, mkCandidate tbl b, mkCandidate tbl d]
      = [mkCandidate tbl d] ∧
    removeExistingIndexes [tblWithIndex3 tbl idxn a b c tr]
        [mkCandidate tbl a, mkCandidate tbl b, mkCandidate tbl c]
      = [] := by
  have h1 : (b == a) = false := beq_eq_false_iff_ne.mpr (Ne.symm hab)
  have h2 : (c == a) = false := beq_eq_false_iff_ne.mpr (Ne.symm hac)
  have h3 : (c == b) = false := beq_eq_false_iff_ne.mpr (Ne.symm hbc)
  have h4 : (a == b) = false := beq_eq_false_iff_ne.mpr hab
  have h5 : (a == c) = false := beq_eq_false_iff_ne.mpr hac
  have h6 : (b == c) = false := beq_eq_false_iff_ne.mpr hbc
  have h7 : (d == a) = false := beq_eq_false_iff_ne.mpr hda
  have h8 : (d == b) = false := beq_eq_false_iff_ne.mpr hdb
  have h9 : (d == c) = false := beq_eq_false_iff_ne.mpr hdc
  have h10 : (a == d) = false := beq_eq_false_iff_ne.mpr (Ne.symm hda)
  have h11 : (b == d) = false := beq_eq_false_iff_ne.mpr (Ne.symm hdb)
  have h12 : (c == d) = false := beq_eq_false_iff_ne.mpr (Ne.symm hdc)
  constructor <;>
    simp [removeExistingIndexes, tblWithIndex3, groupIndexesByName, dedupFirst, dedupFirstAux,
          sortBySequence, List.insertionSort, List.orderedInsert, seqLe,
          removeMaximumIndexes, removeMaximumIndexesFuel, matchingPart, removeFirst, dbIndexEq,
          mkCandidate, mkIndexPart,
          h1, h2, h3, h4, h5, h6, h7, h8, h9, h10, h11, h12]

/-- Witness for `removeExisting_AB_amended` at concrete names. -/
theorem removeExisting_AB_amended_witness :
    removeExistingIndexes [tblWithIndex3 "t" "i" "A" "B" "C" 100]
        [mkCandidate "t" "A", mkCandidate "t" "B", mkCandidate "t" "D"]
      = [mkCandidate "t" "D"] ∧
    removeExistingIndexes [tblWithIndex3 "t" "i" "A" "B" "C" 100]
        [mkCandidate "t" "A", mkCandidate "t" "B", mkCandidate "t" "C"]
      = [] :=
  removeExisting_AB_amended "t" "i" "A" "B" "C" "D" 100
    (by decide) (by decide) (by decide) (by decide) (by decide) (by decide)

/-- **C4.**  `analyze` over two queries that both reference table `t`
invokes the table-description fetcher once (its cache works), but invokes
the column-statistics fetcher once per query — twice for the single
distinct table — because `fetch_column_stats` checks
`column_statistics_cache` yet never writes to it. -/
theorem analyze_stats_fetcher_not_cached :
    (analyze site4 [q4 "q1", q4 "q2"]).map (fun r => (r.2.describeCalls, r.2.statsCalls))
      = .ok (["t"], ["t", "t"]) := by decide

/-- **C5, counterexample.**  A batch whose first query fails to parse
returns the parse error and no mapping at all — the other query's result
(which the second conjunct shows would be produced when that query is
analyzed alone) is lost, contradicting the claim that a failing query is
merely omitted while the rest of the batch is still processed. -/
theorem analyze_abort_counterexample :
    analyze site4 [qBad, qGood] = .error (.parseError "q1") ∧
    (analyze site4 [qGood]).map (fun r => r.1) = .ok [("qg", [best3])] := by decide

/-- **C5, amended.**  The only per-query isolation `analyze` performs is
skipping queries absent from the EXPLAIN output map; a per-query analysis
failure (here: a parse failure on a query that is present in the map)
propagates and aborts the whole batch with that error, returning no
mapping for any query. -/
theorem analyze_failure_aborts_batch :
    (∀ (site : Site) (qb : Query) (rest : List Query),
        qb.parsed = none →
        (lookupAssoc (site.explainQueries ((qb :: rest).map (fun q => q.raw))) qb.raw).isSome
          = true →
        analyze site (qb :: rest) = .error (.parseError qb.raw)) ∧
    (∀ (site : Site) (em : List (String × List DBExplain)) (st : CoordState)
        (acc : List (String × List DBIndex)) (q : Query) (rest : List Query),
        lookupAssoc em q.raw = none →
        analyzeLoop site em st acc (q :: rest) = analyzeLoop site em st acc rest) := by
  constructor
  · intro site qb rest hp hin
    obtain ⟨ep, hep⟩ := Option.isSome_iff_exists.mp hin
    unfold analyze
    conv_lhs => unfold analyzeLoop
    rw [hep, hp]
  · intro site em st acc q rest h
    conv_lhs => unfold analyzeLoop
    rw [h]

/-- Witness for `analyze_failure_aborts_batch` on the concrete site. -/
theorem analyze_failure_aborts_batch_witness :
    (qBad.parsed = none ∧
      (lookupAssoc (site4.explainQueries (([qBad, qGood]).map (fun q => q.raw)))
          qBad.raw).isSome = true ∧
      lookupAssoc ([] : List (String × List DBExplain)) qGood.raw = none) ∧
    analyze site4 [qBad, qGood] = .error (.parseError qBad.raw) ∧
    analyzeLoop site4 [] {} [] [qGood] = analyzeLoop site4 [] {} [] [] :=
  ⟨⟨by decide, by decide, by decide⟩,
   analyze_failure_aborts_batch.1 site4 qBad [qGood] (by decide) (by decide),
   analyze_failure_aborts_batch.2 site4 [] {} [] qGood [] (by decide)⟩

/-- **C6, counterexample.**  A column referenced in both the WHERE and the
JOIN clause produces two identical `(table, column)` candidates: the
pre-reduction candidate list is not deduplicated. -/
theorem generateCandidates_dup_counterexample :
    generateCandidates optDup = .ok [mkCandidate "t" "x", mkCandidate "t" "x"] ∧
    ¬ List.Pairwise (fun a b : DBIndex => (a.table, a.column) ≠ (b.table, b.column))
        [mkCandidate "t" "x", mkCandidate "t" "x"] := by decide

/-- **C6, amended.**  Whenever candidate generation succeeds, the produced
candidate list is sorted (non-strictly) by the `(table, column)` key — but
it is not deduplicated: the same `(table, column)` may appear repeatedly
(see `generateCandidates_dup_counterexample`). -/
theorem generateCandidates_sorted (opt : DBOptimizer) (l : List DBIndex)
    (h : generateCandidates opt = .ok l) : List.Sorted candRel l := by
  unfold generateCandidates at h
  cases hm : (possibleColumns opt).mapM (convertToDBIndex opt.tables) with
  | error e =>
    rw [hm, exceptBind_error] at h
    simp at h
  | ok conv =>
    rw [hm, exceptBind_ok] at h
    have hl := Except.ok.inj h
    rw [← hl]
    exact List.sorted_insertionSort candRel _

/-- Witness for `generateCandidates_sorted` on the duplicated pool. -/
theorem generateCandidates_sorted_witness :
    (generateCandidates optDup = .ok [mkCandidate "t" "x", mkCandidate "t" "x"]) ∧
    List.Sorted candRel [mkCandidate "t" "x", mkCandidate "t" "x"] :=
  ⟨by decide, generateCandidates_sorted optDup _ (by decide)⟩

/-- **C7.**  With `total_rows > 0`: the score is
`(total_rows / cardinality) / total_rows` with the cardinality defaulting
to 2 when unknown; for a fixed table, a strictly lower (positive)
cardinality yields a strictly higher score; and a candidate whose
cardinality equals `total_rows` scores exactly `1 / total_rows`. -/
theorem indexScore_formula_monotone :
    (∀ (t : DBTable) (i : DBIndex), 0 < t.total_rows → i.cardinality.getD 2 ≠ 0 →
        indexScore t i = ((t.total_rows : Rat) / i.cardinality.getD 2) / (t.total_rows : Rat)) ∧
    (∀ (t : DBTable) (i j : DBIndex) (c₁ c₂ : Rat), 0 < t.total_rows →
        i.cardinality = some c₁ → j.cardinality = some c₂ → 0 < c₁ → c₁ < c₂ →
        indexScore t j < indexScore t i) ∧
    (∀ (t : DBTable) (i : DBIndex), 0 < t.total_rows →
        i.cardinality = some ((t.total_rows : Int) : Rat) →
        indexScore t i = 1 / (t.total_rows : Rat)) := by
  have key : ∀ (t : DBTable) (c : Rat), 0 < t.total_rows → c ≠ 0 →
      ((t.total_rows : Rat) / c) / (t.total_rows : Rat) = 1 / c := by
    intro t c htr hc
    have htr' : ((t.total_rows : Int) : Rat) ≠ 0 := by exact_mod_cast ne_of_gt htr
    field_simp
    ring
  refine ⟨indexScore_eq, ?_, ?_⟩
  · intro t i j c₁ c₂ htr hi hj hc₁ hlt
    have hc₁' : c₁ ≠ 0 := ne_of_gt hc₁
    have hc₂' : c₂ ≠ 0 := ne_of_gt (lt_trans hc₁ hlt)
    rw [indexScore_eq t i htr (by simp [hi, hc₁']), indexScore_eq t j htr (by simp [hj, hc₂'])]
    simp only [hi, hj, Option.getD_some]
    rw [key t c₁ htr hc₁', key t c₂ htr hc₂']
    exact one_div_lt_one_div_of_lt hc₁ hlt
  · intro t i htr hi
    have htr' : ((t.total_rows : Int) : Rat) ≠ 0 := by exact_mod_cast ne_of_gt htr
    rw [indexScore_eq t i htr (by simp [hi, htr'])]
    simp only [hi, Option.getD_some]
    rw [key t _ htr htr']

/-- Witness for `indexScore_formula_monotone` on `tblT`. -/
theorem indexScore_formula_monotone_witness :
    ((0 : Int) < tblT.total_rows ∧ (candCard 100).cardinality.getD 2 ≠ 0) ∧
    indexScore tblT (candCard 100)
      = ((tblT.total_rows : Rat) / (candCard 100).cardinality.getD 2)
          / (tblT.total_rows : Rat) ∧
    indexScore tblT (candCard 200) < indexScore tblT (candCard 100) ∧
    indexScore tblT (candCard ((tblT.total_rows : Int) : Rat)) = 1 / (tblT.total_rows : Rat) :=
  ⟨⟨by decide, by decide⟩,
   indexScore_formula_monotone.1 tblT (candCard 100) (by decide) (by decide),
   indexScore_formula_monotone.2.1 tblT (candCard 100) (candCard 200) 100 200
     (by decide) rfl rfl (by decide) (by decide),
   indexScore_formula_monotone.2.2 tblT (candCard ((tblT.total_rows : Int) : Rat))
     (by decide) rfl⟩

/-- **C8.**  Whenever the parsed query references a table with no supplied
data, `suggest_index` raises the configuration error, whose payload names
exactly the missing tables (each of them, and nothing else); no suggestion
is returned. -/
theorem suggestIndex_missing_tables_error (opt : DBOptimizer)
    (h : ∃ t ∈ tablesExamined opt, lookupAssoc opt.tables t = none) :
    suggestIndex opt = .error (.configError (missingTables opt)) ∧
    (∀ t ∈ tablesExamined opt, lookupAssoc opt.tables t = none → t ∈ missingTables opt) ∧
    (∀ t ∈ missingTables opt, t ∈ tablesExamined opt ∧ lookupAssoc opt.tables t = none) := by
  obtain ⟨t0, ht0m, ht0⟩ := h
  have ht0mem : t0 ∈ missingTables opt := by
    rw [missingTables, mem_dedupFirst]
    exact List.mem_filter.mpr ⟨ht0m, by simp [ht0]⟩
  have hne : ¬ ((missingTables opt).isEmpty = true) := by
    intro he
    rw [List.isEmpty_iff] at he
    rw [he] at ht0mem
    exact List.not_mem_nil t0 ht0mem
  refine ⟨?_, ?_, ?_⟩
  · unfold suggestIndex
    rw [if_neg hne]
  · intro t htm htl
    rw [missingTables, mem_dedupFirst]
    exact List.mem_filter.mpr ⟨htm, by simp [htl]⟩
  · intro t htmiss
    rw [missingTables, mem_dedupFirst] at htmiss
    have := List.mem_filter.mp htmiss
    exact ⟨this.1, Option.isNone_iff_eq_none.mp this.2⟩

/-- Witness for `suggestIndex_missing_tables_error` on `opt8`. -/
theorem suggestIndex_missing_tables_error_witness :
    ("u" ∈ tablesExamined opt8 ∧ lookupAssoc opt8.tables "u" = none) ∧
    suggestIndex opt8 = .error (.configError (missingTables opt8)) ∧
    missingTables opt8 = ["u"] :=
  ⟨⟨by decide, by decide⟩,
   (suggestIndex_missing_tables_error opt8 ⟨"u", by decide, by decide⟩).1,
   by decide⟩

/-- **C9.**  Provided every supplied table has a non-zero row count (the
code divides by `total_rows`, so a zero count raises instead),
`can_be_optimized` is true exactly when some EXPLAIN entry and some
supplied table share a name and the entry's examined rows exceed a tenth
of the table's rows. -/
theorem canBeOptimized_iff (opt : DBOptimizer)
    (_hrows : ∀ p ∈ opt.tables, p.2.total_rows ≠ 0) :
    canBeOptimized opt = true ↔
      ∃ e ∈ opt.explain_plan, ∃ p ∈ opt.tables,
        p.2.name = e.table ∧
        OPTIMIZATION_THRESHOLD < (e.rows : Rat) / (p.2.total_rows : Rat) := by
  unfold canBeOptimized
  rw [List.any_eq_true]
  constructor
  · rintro ⟨e, he, hinner⟩
    rw [List.any_eq_true] at hinner
    obtain ⟨t', ht'm, hcond⟩ := hinner
    obtain ⟨p, hp, rfl⟩ := List.mem_map.mp ht'm
    rw [Bool.and_eq_true] at hcond
    exact ⟨e, he, p, hp, beq_iff_eq.mp hcond.1, of_decide_eq_true hcond.2⟩
  · rintro ⟨e, he, p, hp, hname, hgt⟩
    refine ⟨e, he, ?_⟩
    rw [List.any_eq_true]
    refine ⟨p.2, List.mem_map.mpr ⟨p, hp, rfl⟩, ?_⟩
    rw [Bool.and_eq_true]
    exact ⟨beq_iff_eq.mpr hname, decide_eq_true hgt⟩

/-- Witness for `canBeOptimized_iff` on `opt9` (50000 of 100000 rows). -/
theorem canBeOptimized_iff_witness :
    (∀ p ∈ opt9.tables, p.2.total_rows ≠ 0) ∧ canBeOptimized opt9 = true :=
  ⟨by decide,
   (canBeOptimized_iff opt9 (by decide)).mpr
     ⟨{ select_type := "SIMPLE", table := "t", scan_type := "ALL", rows := 50000 },
      by decide, ("t", tblT), by decide, by decide, by decide⟩⟩

/-- **C10.**  A query context that satisfies the supplied-tables
precondition (no missing table) on which `suggest_index` neither returns a
value nor raises the configuration error: the unqualified column `zz`
occurs in no supplied schema, so its candidate's table resolves to `None`
and the type-filtering lookup `self.tables[index.table]` raises an
unhandled `KeyError`. -/
theorem suggestIndex_unresolved_column_keyError :
    missingTables opt10 = [] ∧
    suggestIndex opt10 = .error (.keyError none) := by decide

/-- **C3.**  When the supplied-tables guard passes and candidate
generation, reduction and type filtering all succeed, `suggest_index`
(i) only ever returns a scored survivor of minimal score that is strictly
below the threshold, (ii) returns `none` on an empty survivor set,
(iii) returns `none` when every survivor scores at least the threshold,
and (iv) returns a suggestion whenever some survivor scores strictly below
the threshold. -/
theorem suggestIndex_selects_lowest (opt : DBOptimizer) (pool : List DBIndex)
    (survivors : List (DBIndex × DBTable))
    (hmiss : missingTables opt = [])
    (hpool : potentialIndexes opt = .ok pool)
    (hsurv : typeFilter opt.tables pool = .ok survivors) :
    (∀ b, suggestIndex opt = .ok (some b) →
        b ∈ scoreAll survivors ∧ (∀ c ∈ scoreAll survivors, b._score ≤ c._score) ∧
        b._score < INDEX_SCORE_THRESHOLD) ∧
    (scoreAll survivors = [] → suggestIndex opt = .ok none) ∧
    ((∀ c ∈ scoreAll survivors, INDEX_SCORE_THRESHOLD ≤ c._score) →
        suggestIndex opt = .ok none) ∧
    ((∃ c ∈ scoreAll survivors, c._score < INDEX_SCORE_THRESHOLD) →
        ∃ b, suggestIndex opt = .ok (some b)) := by
  have hkey : suggestIndex opt
      = (match List.insertionSort scoreLe (scoreAll survivors) with
         | [] => Except.ok none
         | best :: _ =>
           if best._score < INDEX_SCORE_THRESHOLD then Except.ok (some best)
           else Except.ok none) := by
    unfold suggestIndex
    rw [hmiss, if_pos (show ([] : List String).isEmpty = true from rfl),
        hpool, exceptBind_ok, hsurv, exceptBind_ok]
  cases hs : List.insertionSort scoreLe (scoreAll survivors) with
  | nil =>
    have hemp : scoreAll survivors = [] := by
      have := List.perm_insertionSort scoreLe (scoreAll survivors)
      rw [hs] at this
      exact (List.Perm.nil_eq this).symm
    rw [hs] at hkey
    replace hkey : suggestIndex opt = Except.ok none := hkey
    refine ⟨?_, fun _ => hkey, fun _ => hkey, ?_⟩
    · intro b hb
      rw [hkey] at hb
      cases hb
    · rintro ⟨c, hc, _⟩
      rw [hemp] at hc
      exact absurd hc (List.not_mem_nil c)
  | cons best rest =>
    have hmem : best ∈ scoreAll survivors := by
      rw [← List.mem_insertionSort scoreLe (l := scoreAll survivors), hs]
      exact List.mem_cons_self best rest
    have hminimal : ∀ c ∈ scoreAll survivors, best._score ≤ c._score := by
      intro c hc
      have hcs : c ∈ List.insertionSort scoreLe (scoreAll survivors) :=
        (List.mem_insertionSort scoreLe).mpr hc
      rw [hs] at hcs
      rcases List.mem_cons.mp hcs with rfl | hcr
      · exact le_refl _
      · have hsorted := List.sorted_insertionSort scoreLe (scoreAll survivors)
        rw [hs] at hsorted
        exact (List.sorted_cons.mp hsorted).1 c hcr
    rw [hs] at hkey
    replace hkey : suggestIndex opt
        = (if best._score < INDEX_SCORE_THRESHOLD then Except.ok (some best)
           else Except.ok none) := hkey
    by_cases hθ : best._score < INDEX_SCORE_THRESHOLD
    · rw [if_pos hθ] at hkey
      refine ⟨?_, ?_, ?_, ?_⟩
      · intro b hb
        rw [hkey] at hb
        have hbb : best = b := by
          injection hb with hb'
          injection hb'
        rw [← hbb]
        exact ⟨hmem, hminimal, hθ⟩
      · intro hemp
        rw [hemp] at hmem
        exact absurd hmem (List.not_mem_nil best)
      · intro hall
        exact absurd hθ (not_lt.mpr (hall best hmem))
      · intro _
        exact ⟨best, hkey⟩
    · rw [if_neg hθ] at hkey
      refine ⟨?_, fun _ => hkey, fun _ => hkey, ?_⟩
      · intro b hb
        rw [hkey] at hb
        cases hb
      · rintro ⟨c, hc, hclt⟩
        exact absurd (lt_of_le_of_lt (hminimal c hc) hclt) hθ

/-- Witness for `suggestIndex_selects_lowest` on the happy path `opt3`. -/
theorem suggestIndex_selects_lowest_witness :
    (missingTables opt3 = [] ∧
      potentialIndexes opt3 = .ok [mkCandidate "t" "x"] ∧
      typeFilter opt3.tables [mkCandidate "t" "x"] = .ok [(candCard 100, tblT)] ∧
      suggestIndex opt3 = .ok (some best3)) ∧
    best3 ∈ scoreAll [(candCard 100, tblT)] ∧
    best3._score < INDEX_SCORE_THRESHOLD :=
  ⟨⟨by decide, by decide, by decide, by decide⟩,
   ((suggestIndex_selects_lowest opt3 [mkCandidate "t" "x"] [(candCard 100, tblT)]
       (by decide) (by decide) (by decide)).1 best3 (by decide)).1,
   ((suggestIndex_selects_lowest opt3 [mkCandidate "t" "x"] [(candCard 100, tblT)]
       (by decide) (by decide) (by decide)).1 best3 (by decide)).2.2⟩



end DBOpt
